import Mathlib

/-!
Verification development for the convertwebp2 repository (GIF to WebP converter).

The numeric core (pixel comparison, quality scoring and grading, the adaptive
parameter optimizer), the converter statistics accumulator and the batch
orchestration entry points are embedded shallowly below.  JavaScript numbers
are modelled as exact rationals; the JS value NaN, produced by out-of-bounds
array reads, is modelled with Option (none = NaN).  JS Math.floor is the
rational floor and JS Math.round rounds half toward positive infinity.
-/

/-- JS Math.round on an exact rational: round to nearest, halves toward +inf. -/
def jsRound (q : ℚ) : ℤ := ⌊q + 1/2⌋

/-- JS Math.round over the reals, for the transcendental PSNR formula. -/
noncomputable def jsRoundReal (x : ℝ) : ℤ := ⌊x + 1/2⌋

/-- A JS number that is either the value Infinity or a finite (exact) number.
Used for PSNR, which the source sets to Infinity when mse is zero. -/
inductive PsnrVal where
  | inf
  | fin (val : ℚ)
deriving DecidableEq, Repr

/-- Comparison psnr1 <= psnr2 on possibly-infinite PSNR values. -/
def psnrLe : PsnrVal → PsnrVal → Bool
  | _, .inf => true
  | .inf, .fin _ => false
  | .fin p, .fin q => decide (p ≤ q)

/-- The JS comparison (psnr >= t) for a possibly-infinite psnr;
Infinity >= t is true for every finite t. -/
def psnrGe : PsnrVal → ℚ → Bool
  | .inf, _ => true
  | .fin p, t => decide (t ≤ p)

/-! ## Pixel comparison engine (source part_002, PSNR quality analysis module) -/

/-- One tier of the quality evaluation table (source lines 39 to 45). -/
structure QualityTier where
  psnr : ℚ
  ssim : ℚ
  score : ℤ
deriving DecidableEq, Repr

/-- The five-tier table of quality evaluation criteria. -/
structure QualityThresholdTable where
  excellent : QualityTier
  good : QualityTier
  acceptable : QualityTier
  poor : QualityTier
  unacceptable : QualityTier
deriving DecidableEq, Repr

/-- QUALITY_THRESHOLDS from the source (part_002 lines 39 to 45). -/
def QUALITY_THRESHOLDS : QualityThresholdTable :=
  { excellent := ⟨40, 0.95, 90⟩
    good := ⟨35, 0.90, 75⟩
    acceptable := ⟨30, 0.85, 60⟩
    poor := ⟨25, 0.80, 40⟩
    unacceptable := ⟨20, 0.70, 20⟩ }

/-- The squared difference the inner loop of calculateMSE reads at flat index k
(source line 106: diff = originalPixels at i+c minus compressedPixels at i+c).
An out-of-bounds read yields undefined in JS and poisons the sum with NaN,
modelled here as none. -/
def sqDiffAt (a b : List ℤ) (k : ℕ) : Option ℚ :=
  if k < a.length ∧ k < b.length then
    some (((a.getD k 0 - b.getD k 0) * (a.getD k 0 - b.getD k 0) : ℤ) : ℚ)
  else none

/-- Addition on JS numbers where none stands for NaN (NaN is absorbing). -/
def nanAdd : Option ℚ → Option ℚ → Option ℚ
  | some x, some y => some (x + y)
  | _, _ => none

/-- The inner channel loop of calculateMSE: sum of the squared differences at
flat indices i, i+1, ..., i+n-1 (source lines 105 to 108 with n = channels). -/
def innerSum (a b : List ℤ) (i : ℕ) : ℕ → Option ℚ
  | 0 => some 0
  | c + 1 => nanAdd (innerSum a b i c) (sqDiffAt a b (i + c))

/-- The outer loop of calculateMSE: starting at flat index i it adds one block
of chm1+1 (= channels) squared differences and advances by channels while
i < a.length (source lines 104 to 109). -/
def outerSum (a b : List ℤ) (chm1 : ℕ) (i : ℕ) : Option ℚ :=
  if i < a.length then
    nanAdd (innerSum a b i (chm1 + 1)) (outerSum a b chm1 (i + (chm1 + 1)))
  else some 0
termination_by a.length - i
decreasing_by omega

/-- calculateMSE (source part_002 lines 96 to 112).  Throws the size-mismatch
error when the buffer lengths differ; otherwise runs the double loop and
divides by pixelCount * channels where pixelCount = length / channels.
The channels = 0 case is degenerate in the source (the loop with step 0 never
terminates on a nonempty buffer, and an empty buffer yields 0/0 = NaN); it is
mapped to the NaN result none here.  An empty buffer also divides by zero,
giving NaN. -/
def calculateMSE (a b : List ℤ) (channels : ℕ) : Except String (Option ℚ) :=
  if a.length ≠ b.length then
    .error "픽셀 배열 크기가 일치하지 않습니다"
  else
    match channels with
    | 0 => .ok none
    | chm1 + 1 =>
      match outerSum a b chm1 0 with
      | none => .ok none
      | some totalSquaredDiff =>
        if a.length = 0 then .ok none
        else
          .ok (some (totalSquaredDiff /
            (((a.length : ℚ) / (chm1 + 1 : ℚ)) * (chm1 + 1 : ℚ))))

/-- calculatePSNR (source part_002 lines 120 to 127): Infinity when mse = 0,
otherwise 20*log10(maxPixelValue/sqrt(mse)) rounded to two decimal places.
The nonzero branch is transcendental; no claim evaluates it. -/
noncomputable def calculatePSNR (mse : ℚ) (maxPixelValue : ℚ := 255) : PsnrVal :=
  if mse = 0 then .inf
  else .fin ((jsRoundReal (20 * Real.logb 10 ((maxPixelValue : ℝ) / Real.sqrt (mse : ℝ)) * 100) : ℚ) / 100)

/-- estimateSSIM (source part_002 lines 135 to 146): 1.0 at infinite PSNR,
otherwise 0.5 + clamp(psnr, 0, 50)/50 * 0.5 rounded to three decimal places. -/
def estimateSSIM : PsnrVal → ℚ
  | .inf => 1
  | .fin psnr =>
    let normalizedPSNR := max 0 (min 50 psnr) / 50
    let ssim := 0.5 + normalizedPSNR * 0.5
    (jsRound (ssim * 1000) : ℚ) / 1000

/-- The PSNR-based partial score of calculateQualityScore
(source part_002 lines 157 to 168), piecewise linear between the tier
boundaries; an infinite PSNR satisfies the first comparison. -/
def psnrScoreOf : PsnrVal → ℚ
  | .inf => 100
  | .fin psnr =>
    if QUALITY_THRESHOLDS.excellent.psnr ≤ psnr then 100
    else if QUALITY_THRESHOLDS.good.psnr ≤ psnr then
      75 + (psnr - QUALITY_THRESHOLDS.good.psnr) /
        (QUALITY_THRESHOLDS.excellent.psnr - QUALITY_THRESHOLDS.good.psnr) * 25
    else if QUALITY_THRESHOLDS.acceptable.psnr ≤ psnr then
      50 + (psnr - QUALITY_THRESHOLDS.acceptable.psnr) /
        (QUALITY_THRESHOLDS.good.psnr - QUALITY_THRESHOLDS.acceptable.psnr) * 25
    else max 0 (psnr / QUALITY_THRESHOLDS.acceptable.psnr * 50)

/-- calculateQualityScore (source part_002 lines 155 to 179): composite of the
PSNR score (60 percent), ssim*100 (30 percent) and a compression bonus
min(10, ratio*15) (10 percent), clamped to [0,100] and rounded. -/
def calculateQualityScore (psnr : PsnrVal) (ssim : ℚ) (compressionRatio : ℚ) : ℤ :=
  let psnrScore := psnrScoreOf psnr
  let ssimScore := ssim * 100
  let compressionBonus := min 10 (compressionRatio * 15)
  let totalScore := psnrScore * 0.6 + ssimScore * 0.3 + compressionBonus * 0.1
  jsRound (min 100 (max 0 totalScore))

/-- getQualityGrade (source part_002 lines 188 to 200).  A tier is reached only
when both its psnr threshold and its score threshold hold, checked from
highest to lowest; the ssim argument is accepted but unused, as in the source. -/
def getQualityGrade (psnr : PsnrVal) (ssim : ℚ) (qualityScore : ℤ) : String :=
  if psnrGe psnr QUALITY_THRESHOLDS.excellent.psnr ∧
      QUALITY_THRESHOLDS.excellent.score ≤ qualityScore then "excellent"
  else if psnrGe psnr QUALITY_THRESHOLDS.good.psnr ∧
      QUALITY_THRESHOLDS.good.score ≤ qualityScore then "good"
  else if psnrGe psnr QUALITY_THRESHOLDS.acceptable.psnr ∧
      QUALITY_THRESHOLDS.acceptable.score ≤ qualityScore then "acceptable"
  else if psnrGe psnr QUALITY_THRESHOLDS.poor.psnr then "poor"
  else "unacceptable"

/-! ## Adaptive parameter optimizer (source part_001) -/

/-- GIFAnalysis (source part_001 lines 59 to 69): the attributes of a probed
source image. -/
structure GIFAnalysis where
  fileSize : ℕ
  width : ℕ
  height : ℕ
  frames : ℕ
  format : String
  density : ℚ
  hasAlpha : Bool
deriving DecidableEq, Repr

/-- OptimizationOptions (source part_001 lines 13 to 22).  The quality and
effort knobs are integer-valued in the source (CLI parses integers). -/
structure OptimizationOptions where
  targetCompressionRatio : ℚ
  minPSNR : ℚ
  maxQuality : ℤ
  minQuality : ℤ
  maxEffort : ℤ
  allowLossless : Bool
deriving DecidableEq, Repr

/-- DEFAULT_OPTIONS (source part_001 lines 39 to 46). -/
def DEFAULT_OPTIONS : OptimizationOptions :=
  { targetCompressionRatio := 0.62
    minPSNR := 35
    maxQuality := 95
    minQuality := 45
    maxEffort := 6
    allowLossless := false }

/-- OptimizationResult (source part_001 lines 24 to 34), with the strategy tag
that the source stores under metadata.optimizationStrategy. -/
structure OptimizationResult where
  quality : ℤ
  effort : ℤ
  lossless : Bool
  predictedSize : ℤ
  compressionRatio : ℚ
  estimatedPSNR : PsnrVal
  strategy : String
deriving DecidableEq, Repr

/-- predictQualityFromSize (source part_001 lines 106 to 121): bucket the total
pixel volume width*height*frames into five tiers of base quality. -/
def predictQualityFromSize (width height frames : ℕ) : ℤ :=
  let totalPixels := width * height * frames
  if totalPixels < 50000 then 85
  else if totalPixels < 200000 then 80
  else if totalPixels < 800000 then 75
  else if totalPixels < 2000000 then 70
  else 65

/-- optimizeForCompression (source part_001 lines 129 to 188). -/
def optimizeForCompression (analysis : GIFAnalysis) (opts : OptimizationOptions) :
    OptimizationResult :=
  let baseQuality := predictQualityFromSize analysis.width analysis.height analysis.frames
  let qualityAdjustment : ℤ := ⌊(1 - opts.targetCompressionRatio) * 30⌋
  let q1 := max opts.minQuality (min opts.maxQuality (baseQuality - qualityAdjustment))
  let q2 := if analysis.width * analysis.height > 1000000 then
      max opts.minQuality (q1 - 10) else q1
  let recommendedQuality := if analysis.frames > 20 then
      max opts.minQuality (q2 - 5) else q2
  let estimatedCompressionRatio :=
    min (0.8 : ℚ) (0.3 + (100 - (recommendedQuality : ℚ)) / 100 * 0.4)
  let predictedSize := ⌊(analysis.fileSize : ℚ) * (1 - estimatedCompressionRatio)⌋
  let estimatedPSNR := max 30 (25 + (recommendedQuality : ℚ) / 100 * 20)
  { quality := recommendedQuality
    effort := opts.maxEffort
    lossless := false
    predictedSize := predictedSize
    compressionRatio := estimatedCompressionRatio
    estimatedPSNR := .fin estimatedPSNR
    strategy := "compression-focused" }

/-- optimizeForQuality (source part_001 lines 196 to 248). -/
def optimizeForQuality (analysis : GIFAnalysis) (opts : OptimizationOptions) :
    OptimizationResult :=
  let recommendedQuality : ℤ :=
    if analysis.fileSize > 5 * 1024 * 1024 then 80
    else if analysis.fileSize > 1 * 1024 * 1024 then 85
    else 90
  if opts.allowLossless ∧ analysis.fileSize < 2 * 1024 * 1024 then
    { quality := 100
      effort := opts.maxEffort
      lossless := true
      predictedSize := ⌊(analysis.fileSize : ℚ) * 0.7⌋
      compressionRatio := 0.3
      estimatedPSNR := .inf
      strategy := "quality-focused-lossless" }
  else
    let estimatedCompressionRatio :=
      min (0.6 : ℚ) (0.2 + (100 - (recommendedQuality : ℚ)) / 100 * 0.3)
    let predictedSize := ⌊(analysis.fileSize : ℚ) * (1 - estimatedCompressionRatio)⌋
    let estimatedPSNR := max opts.minPSNR (30 + (recommendedQuality : ℚ) / 100 * 25)
    { quality := recommendedQuality
      effort := opts.maxEffort
      lossless := false
      predictedSize := predictedSize
      compressionRatio := estimatedCompressionRatio
      estimatedPSNR := .fin estimatedPSNR
      strategy := "quality-focused" }

/-- optimizeBalanced (source part_001 lines 256 to 285). -/
def optimizeBalanced (analysis : GIFAnalysis) (opts : OptimizationOptions) :
    OptimizationResult :=
  let compressionResult := optimizeForCompression analysis opts
  let qualityResult := optimizeForQuality analysis opts
  let balancedQuality : ℤ := ⌊((compressionResult.quality + qualityResult.quality : ℤ) : ℚ) / 2⌋
  let balancedCompressionRatio :=
    (compressionResult.compressionRatio + qualityResult.compressionRatio) / 2
  { quality := balancedQuality
    effort := opts.maxEffort
    lossless := false
    predictedSize := ⌊(analysis.fileSize : ℚ) * (1 - balancedCompressionRatio)⌋
    compressionRatio := balancedCompressionRatio
    estimatedPSNR := .fin (max opts.minPSNR (30 + (balancedQuality : ℚ) / 100 * 25))
    strategy := "balanced" }

/-- The strategy selection of optimizeAdaptive (source part_001 lines 299 to 309):
a cascade of attribute tests, defaulting to balanced. -/
def selectStrategy (analysis : GIFAnalysis) : String :=
  if analysis.fileSize > 10 * 1024 * 1024 then "compression"
  else if analysis.fileSize < 500 * 1024 then "quality"
  else if analysis.width * analysis.height > 2000000 then "compression"
  else if analysis.frames > 50 then "compression"
  else "balanced"

/-- getStrategyReason (source part_001 lines 340 to 357): collects one reason
string per triggered condition and joins them with a comma, defaulting to the
balanced-strategy text; the strategy argument is unused, as in the source. -/
def getStrategyReason (analysis : GIFAnalysis) (strategy : String) : String :=
  let reasons : List String :=
    (if analysis.fileSize > 10 * 1024 * 1024 then ["대용량 파일 (>10MB)"] else []) ++
    (if analysis.fileSize < 500 * 1024 then ["소용량 파일 (<500KB)"] else []) ++
    (if analysis.width * analysis.height > 2000000 then ["고해상도 이미지"] else []) ++
    (if analysis.frames > 50 then ["다량 프레임 (>50)"] else [])
  if reasons.length > 0 then String.intercalate ", " reasons else "기본 균형 전략"

/-- The result of optimizeAdaptive, with the metadata fields selectedStrategy
and selectionReason that the source attaches (part_001 lines 323 to 325). -/
structure AdaptiveResult where
  result : OptimizationResult
  selectedStrategy : String
  selectionReason : String
deriving DecidableEq, Repr

/-- optimizeAdaptive (source part_001 lines 293 to 332), on an already probed
analysis record (the file probe itself is an external collaborator). -/
def optimizeAdaptive (analysis : GIFAnalysis) (opts : OptimizationOptions) :
    AdaptiveResult :=
  let strategy := selectStrategy analysis
  let result :=
    if strategy = "compression" then optimizeForCompression analysis opts
    else if strategy = "quality" then optimizeForQuality analysis opts
    else optimizeBalanced analysis opts
  { result := result
    selectedStrategy := strategy
    selectionReason := getStrategyReason analysis strategy }

/-! ## Converter statistics accumulator (source part_002, converter class) -/

/-- The stats record of GifToWebPConverter (source lines 696 to 701). -/
structure ConvStats where
  processed : ℕ
  failed : ℕ
  totalSizeBefore : ℕ
  totalSizeAfter : ℕ
deriving DecidableEq, Repr

/-- The initial (and reset) statistics (source lines 696 to 701 and 858 to 865). -/
def initialStats : ConvStats := ⟨0, 0, 0, 0⟩

/-- updateStats (source lines 829 to 837). -/
def updateStats (s : ConvStats) (inputSize outputSize : ℕ) (success : Bool) : ConvStats :=
  if success then
    { s with
      processed := s.processed + 1
      totalSizeBefore := s.totalSizeBefore + inputSize
      totalSizeAfter := s.totalSizeAfter + outputSize }
  else
    { s with failed := s.failed + 1 }

/-- The record returned by getStats (source lines 843 to 853). -/
structure StatsView where
  processed : ℕ
  failed : ℕ
  totalSizeBefore : ℕ
  totalSizeAfter : ℕ
  totalCompressionRatio : ℚ
  totalSaved : ℤ
deriving DecidableEq, Repr

/-- getStats (source lines 843 to 853): the exposed aggregate ratio is a
percentage, ((before - after) / before) * 100, guarded to 0 when no bytes
have been accumulated. -/
def getStats (s : ConvStats) : StatsView :=
  { processed := s.processed
    failed := s.failed
    totalSizeBefore := s.totalSizeBefore
    totalSizeAfter := s.totalSizeAfter
    totalCompressionRatio :=
      if 0 < s.totalSizeBefore then
        ((s.totalSizeBefore : ℚ) - (s.totalSizeAfter : ℚ)) / (s.totalSizeBefore : ℚ) * 100
      else 0
    totalSaved := (s.totalSizeBefore : ℤ) - (s.totalSizeAfter : ℤ) }

/-- The per-task outcome convertFile reports to updateStats: on success the
input and output byte sizes with success = true (source line 747), on failure
the call updateStats(0, 0, false) (source line 771). -/
inductive TaskOutcome where
  | success (inputSize outputSize : ℕ)
  | failure
deriving DecidableEq, Repr

/-- The single stats update convertFile performs for one task outcome. -/
def recordOutcome (s : ConvStats) : TaskOutcome → ConvStats
  | .success i o => updateStats s i o true
  | .failure => updateStats s 0 0 false

/-- The statistics of a finished batch run: one updateStats call per task, in
completion order, starting from the fresh converter stats. -/
def runStats (outcomes : List TaskOutcome) : ConvStats :=
  outcomes.foldl recordOutcome initialStats

/-- Sum of input byte sizes over the successfully completed outcomes only
(spec-side accumulation, for comparison with runStats). -/
def sumBefore : List TaskOutcome → ℕ
  | [] => 0
  | .success i _ :: rest => i + sumBefore rest
  | .failure :: rest => sumBefore rest

/-- Sum of output byte sizes over the successfully completed outcomes only. -/
def sumAfter : List TaskOutcome → ℕ
  | [] => 0
  | .success _ o :: rest => o + sumAfter rest
  | .failure :: rest => sumAfter rest

/-- Number of failed outcomes in a run. -/
def countFailed : List TaskOutcome → ℕ
  | [] => 0
  | .success _ _ :: rest => countFailed rest
  | .failure :: rest => 1 + countFailed rest

/-- Number of successfully completed outcomes in a run. -/
def countCompleted : List TaskOutcome → ℕ
  | [] => 0
  | .success _ _ :: rest => 1 + countCompleted rest
  | .failure :: rest => countCompleted rest

/-! ## Batch orchestration model (source batch-processor.js)

convertFiles (batch-processor.js lines 81 to 105) fans the input paths out
through the p-map work pool with the configured concurrency and stopOnError
settings.  The pool itself is the external p-map dependency (not part of this
repository); it is modelled here by its documented semantics: at most
concurrency mapper calls are in flight, the next queued item is admitted as
soon as a slot is free, items are admitted in input order, and when a mapper
call rejects while stopOnError is set the pool stops admitting new items.
The mapper the repository supplies is converter.convertFile, which catches
every error internally and resolves with a result object carrying a success
flag (part_002 lines 710 to 780); it never rejects. -/

/-- Status of one batch item, as the spec describes it. -/
inductive TaskStatus where
  | pending
  | running
  | completed
  | failed
  | skipped
deriving DecidableEq, BEq, Repr

/-- What one mapper call does when it settles: resolve with a success flag, or
reject (throw). -/
inductive MapOutcome where
  | resolves (success : Bool)
  | rejects
deriving DecidableEq, Repr

/-- The mapper of this repository: convertFile catches every error and
resolves with a result whose success flag records the outcome (part_002
lines 767 to 779); it never rejects. -/
def convertFileOutcome (fails : ℕ → Bool) (i : ℕ) : MapOutcome :=
  .resolves (!(fails i))

/-- State of one batch run: per-item status plus the stopped flag of the pool. -/
structure BatchState where
  status : List TaskStatus
  stopped : Bool
deriving DecidableEq, Repr

/-- All items start pending and the pool is not stopped. -/
def initState (n : ℕ) : BatchState := ⟨List.replicate n .pending, false⟩

/-- Number of items currently in the running state. -/
def countRunning (st : List TaskStatus) : ℕ := st.countP (fun s => s == .running)

/-- The next queued item: the first pending index (p-map consumes the input
iterable in order). -/
def firstPending (st : List TaskStatus) : Option ℕ := st.findIdx? (fun s => s == .pending)

/-- An observable scheduling event of the pool: an item starts running, or an
in-flight item settles. -/
inductive BEvent where
  | start (i : ℕ)
  | finish (i : ℕ)
deriving DecidableEq, Repr

/-- The status an item ends in when its mapper call settles. -/
def finishStatus : MapOutcome → TaskStatus
  | .resolves true => .completed
  | .resolves false => .failed
  | .rejects => .failed

/-- Whether a mapper outcome is a rejection. -/
def isRejection : MapOutcome → Bool
  | .resolves _ => false
  | .rejects => true

/-- One step of the pool: a start event admits the first pending item when the
pool is not stopped and a concurrency slot is free; a finish event settles a
running item and, when stopOnError is set and the mapper rejected, stops the
pool.  Returns none when the event is not enabled. -/
def applyEvent (c : ℕ) (stopOnError : Bool) (mapper : ℕ → MapOutcome)
    (s : BatchState) : BEvent → Option BatchState
  | .start i =>
    if s.stopped = false ∧ countRunning s.status < c ∧ firstPending s.status = some i then
      some { s with status := s.status.set i .running }
    else none
  | .finish i =>
    if s.status[i]? = some .running then
      some { status := s.status.set i (finishStatus (mapper i))
             stopped := s.stopped || (stopOnError && isRejection (mapper i)) }
    else none

/-- Run a sequence of scheduling events from the initial state of a batch of n
items; none when some event in the sequence is not enabled. -/
def batchExec (n c : ℕ) (stopOnError : Bool) (mapper : ℕ → MapOutcome)
    (events : List BEvent) : Option BatchState :=
  events.foldl (fun acc e => acc.bind (fun s => applyEvent c stopOnError mapper s e))
    (some (initState n))

/-! ## Batch entry points (source batch-processor.js) -/

/-- A directory entry as fs.readdir with file types reports it: a plain file
or a subdirectory with its own entries. -/
inductive FSEntry where
  | file (name : String)
  | dir (name : String) (children : List FSEntry)

/-- String lowercasing, character by character (the JS toLowerCase call on a
file extension). -/
def lowerStr (s : String) : String := String.mk (s.toList.map Char.toLower)

/-- path.extname on a base name: the suffix from the last dot, empty when
there is no dot or the only dot is the leading character of a dotfile. -/
def extname (name : String) : String :=
  let cs := name.toList
  match ((List.range cs.length).filter (fun i => cs.getD i ' ' = '.')).getLast? with
  | none => ""
  | some 0 => ""
  | some i => String.mk (cs.drop i)

/-- findGifFiles (batch-processor.js lines 36 to 57): walk the entries of a
directory, descend into subdirectories only when recursive is set, and collect
the joined paths of the plain files whose lowercased extension is .gif. -/
def findGifFiles (recursive : Bool) : String → List FSEntry → List String
  | _, [] => []
  | d, .dir name children :: rest =>
    (if recursive then findGifFiles recursive (d ++ "/" ++ name) children else []) ++
      findGifFiles recursive d rest
  | d, .file name :: rest =>
    (if lowerStr (extname name) == ".gif" then [d ++ "/" ++ name] else []) ++
      findGifFiles recursive d rest

/-- convertFiles (batch-processor.js lines 65 to 113): throws when the input
path list is missing or empty, otherwise runs the batch over the paths and
returns its result array.  The batch run itself (the p-map fan-out) is the
runBatch argument. -/
def convertFiles {α : Type} (runBatch : List String → List α)
    (inputPaths : Option (List String)) : Except String (List α) :=
  match inputPaths with
  | none => .error "변환할 파일이 없습니다."
  | some paths =>
    if paths.length = 0 then .error "변환할 파일이 없습니다."
    else .ok (runBatch paths)

/-- convertDirectory (batch-processor.js lines 122 to 135): scan the directory
for GIF files; when none are found return the empty result array without
starting a run, otherwise convert the found files. -/
def convertDirectory {α : Type} (runBatch : List String → List α)
    (inputDir : String) (entries : List FSEntry) (recursive : Bool) :
    Except String (List α) :=
  let gifFiles := findGifFiles recursive inputDir entries
  if gifFiles.length = 0 then .ok []
  else convertFiles runBatch (some gifFiles)

/-! ## Spec-side comparison definitions

These definitions follow the wording of the specification and of the claims;
they exist to be compared against the embedded source functions above. -/

/-- The mean of the squared per-channel differences over all pixels, as the
spec words it: the sum of the squared entry differences divided by the number
of entries (pixelCount times channels equals the buffer length). -/
def specMeanSquaredDiff (a b : List ℤ) : ℚ :=
  (∑ k in Finset.range a.length,
    (((a.getD k 0 - b.getD k 0) * (a.getD k 0 - b.getD k 0) : ℤ) : ℚ)) / (a.length : ℚ)

/-- The quality formula of claim C4 as stated: a single clamp to
[minQuality, maxQuality] applied after all deductions,
quality = clamp(baseQuality - floor((1-targetRatio)*30) - 10 if area over
1e6 - 5 if frames over 20, minQuality, maxQuality). -/
def claimC4Quality (analysis : GIFAnalysis) (opts : OptimizationOptions) : ℤ :=
  max opts.minQuality (min opts.maxQuality
    (predictQualityFromSize analysis.width analysis.height analysis.frames
      - ⌊(1 - opts.targetCompressionRatio) * 30⌋
      - (if analysis.width * analysis.height > 1000000 then 10 else 0)
      - (if analysis.frames > 20 then 5 else 0)))

/-- The amended quality formula for claim C4: the upper clamp at maxQuality is
applied before the large-area and many-frames deductions and the lower clamp
at minQuality after them, as the source does. -/
def amendedC4Quality (analysis : GIFAnalysis) (opts : OptimizationOptions) : ℤ :=
  max opts.minQuality
    (min opts.maxQuality
      (predictQualityFromSize analysis.width analysis.height analysis.frames
        - ⌊(1 - opts.targetCompressionRatio) * 30⌋)
      - (if analysis.width * analysis.height > 1000000 then 10 else 0)
      - (if analysis.frames > 20 then 5 else 0))

/-- The ordered rule list of the adaptive selector as the spec words it:
first match wins. -/
def adaptiveRuleList : List ((GIFAnalysis → Bool) × String) :=
  [ (fun a => decide (a.fileSize > 10 * 1024 * 1024), "compression")
  , (fun a => decide (a.fileSize < 500 * 1024), "quality")
  , (fun a => decide (a.width * a.height > 2000000), "compression")
  , (fun a => decide (a.frames > 50), "compression") ]

/-- First-match evaluation of an ordered rule list, defaulting to the
balanced strategy when no rule fires. -/
def firstMatchStrategy : List ((GIFAnalysis → Bool) × String) → GIFAnalysis → String
  | [], _ => "balanced"
  | (p, s) :: rest, a => if p a then s else firstMatchStrategy rest a

/-- The bounds claim C3 requires of one optimizer result:
quality within [minQuality, maxQuality] and effort within [0, 6]. -/
def resultWithinBounds (opts : OptimizationOptions) (r : OptimizationResult) : Prop :=
  opts.minQuality ≤ r.quality ∧ r.quality ≤ opts.maxQuality ∧ 0 ≤ r.effort ∧ r.effort ≤ 6

/-! ## Claim theorems -/

/-- C10: calling the batch file conversion with a missing or empty input path
list always throws (no run is started), while the directory variant applied to
a directory containing no matching GIF files returns the empty result array
without throwing. -/
theorem claim_C10 : ∀ (α : Type) (runBatch : List String → List α)
    (inputDir : String) (entries : List FSEntry) (recursive : Bool),
    convertFiles runBatch (none : Option (List String)) = .error "변환할 파일이 없습니다." ∧
    convertFiles runBatch (some []) = .error "변환할 파일이 없습니다." ∧
    (findGifFiles recursive inputDir entries = [] →
      convertDirectory runBatch inputDir entries recursive = .ok []) := by
  intro α runBatch inputDir entries recursive
  refine ⟨rfl, rfl, fun h => ?_⟩
  simp [convertDirectory, h]

/-- Witness for C10: a directory holding two non-GIF files yields the empty
result array without an error. -/
theorem claim_C10_witness :
    findGifFiles false "input" [FSEntry.file "a.txt", FSEntry.file "b.png"] = [] ∧
    convertDirectory (fun _ => ([] : List ℕ)) "input"
      [FSEntry.file "a.txt", FSEntry.file "b.png"] false = .ok [] := by
  have h : findGifFiles false "input" [FSEntry.file "a.txt", FSEntry.file "b.png"] = [] := by
    simp [findGifFiles]; decide
  exact ⟨h, (claim_C10 ℕ (fun _ => []) "input"
    [FSEntry.file "a.txt", FSEntry.file "b.png"] false).2.2 h⟩

/-- C6: the adaptive selector is the first-match evaluation of the ordered
rule list (fileSize over 10MB gives compression, fileSize under 500KB gives
quality, area over 2000000 gives compression, frames over 50 gives
compression, else balanced), and on the scenario attributes
fileSize 12000000, width 1920, height 1080, frames 30 it selects compression
with a rationale string mentioning the large-file-size trigger. -/
theorem claim_C6 :
    (∀ a : GIFAnalysis, selectStrategy a = firstMatchStrategy adaptiveRuleList a) ∧
    (optimizeAdaptive ⟨12000000, 1920, 1080, 30, "gif", 72, false⟩
      DEFAULT_OPTIONS).selectedStrategy = "compression" ∧
    (∃ s t : String,
      (optimizeAdaptive ⟨12000000, 1920, 1080, 30, "gif", 72, false⟩
        DEFAULT_OPTIONS).selectionReason = s ++ "대용량 파일 (>10MB)" ++ t) := by
  refine ⟨fun a => ?_, by decide, "", ", 고해상도 이미지", by decide⟩
  simp only [selectStrategy, firstMatchStrategy, adaptiveRuleList, decide_eq_true_eq]

/-- Field-wise characterization of folding converter stats updates over a list
of task outcomes: byte totals accumulate over successful outcomes only, the
failure counter over failed outcomes only. -/
theorem runStats_foldl (l : List TaskOutcome) : ∀ s : ConvStats,
    (l.foldl recordOutcome s).totalSizeBefore = s.totalSizeBefore + sumBefore l ∧
    (l.foldl recordOutcome s).totalSizeAfter = s.totalSizeAfter + sumAfter l ∧
    (l.foldl recordOutcome s).failed = s.failed + countFailed l ∧
    (l.foldl recordOutcome s).processed = s.processed + countCompleted l := by
  induction l with
  | nil => intro s; simp [sumBefore, sumAfter, countFailed, countCompleted]
  | cons x rest ih =>
    intro s
    obtain ⟨h1, h2, h3, h4⟩ := ih (recordOutcome s x)
    cases x with
    | success i o =>
      simp only [List.foldl_cons, h1, h2, h3, h4, sumBefore, sumAfter,
        countFailed, countCompleted]
      simp [recordOutcome, updateStats]
      omega
    | failure =>
      simp only [List.foldl_cons, h1, h2, h3, h4, sumBefore, sumAfter,
        countFailed, countCompleted]
      simp [recordOutcome, updateStats]
      omega

/-- C5 (amended): for every finished batch run, the exposed aggregate
compression ratio equals 100 times (sumBefore - sumAfter) / sumBefore where
the byte totals are accumulated only over successfully completed tasks (and 0
when no bytes were accumulated), while failedCount counts every failed task
and processedCount every completed one.  The source exposes the ratio as a
percentage, not as the plain quotient the claim states. -/
theorem claim_C5 : ∀ outcomes : List TaskOutcome,
    (getStats (runStats outcomes)).totalCompressionRatio =
      (if 0 < sumBefore outcomes then
        ((sumBefore outcomes : ℚ) - (sumAfter outcomes : ℚ)) / (sumBefore outcomes : ℚ) * 100
      else 0) ∧
    (getStats (runStats outcomes)).failed = countFailed outcomes ∧
    (getStats (runStats outcomes)).processed = countCompleted outcomes := by
  intro outcomes
  obtain ⟨h1, h2, h3, h4⟩ := runStats_foldl outcomes initialStats
  simp only [runStats, getStats]
  rw [h1, h2, h3, h4]
  simp only [initialStats]
  norm_num

/-- Counterexample to C5 as stated: a run with one task completed at 100 bytes
in and 50 bytes out exposes the aggregate ratio 50 (a percentage), which is
not the claimed quotient 1/2. -/
theorem claim_C5_counterexample :
    (getStats (runStats [TaskOutcome.success 100 50])).totalCompressionRatio = 50 ∧
    ((sumBefore [TaskOutcome.success 100 50] : ℚ) - (sumAfter [TaskOutcome.success 100 50] : ℚ)) /
      (sumBefore [TaskOutcome.success 100 50] : ℚ) = 1/2 ∧
    (getStats (runStats [TaskOutcome.success 100 50])).totalCompressionRatio ≠
      ((sumBefore [TaskOutcome.success 100 50] : ℚ) - (sumAfter [TaskOutcome.success 100 50] : ℚ)) /
        (sumBefore [TaskOutcome.success 100 50] : ℚ) := by
  norm_num [getStats, runStats, recordOutcome, updateStats, initialStats, sumBefore, sumAfter]

/-- C4 (amended): for every ImageAttributes and options, the compression
strategy returns quality = max(minQuality, min(maxQuality, baseQuality -
floor((1-targetRatio)*30)) - 10 if area over 1e6 - 5 if frames over 20)  --
the upper clamp is applied before the two deductions, not after, as the claim
stated -- with effort = maxEffort, predicted ratio
min(0.8, 0.3 + (100-quality)/100*0.4), predicted size
floor(fileSize*(1-ratio)), and predicted PSNR max(30, 25 + quality/100*20). -/
theorem claim_C4 : ∀ (analysis : GIFAnalysis) (opts : OptimizationOptions),
    (optimizeForCompression analysis opts).quality = amendedC4Quality analysis opts ∧
    (optimizeForCompression analysis opts).effort = opts.maxEffort ∧
    (optimizeForCompression analysis opts).compressionRatio =
      min (0.8 : ℚ) (0.3 + (100 - (amendedC4Quality analysis opts : ℚ)) / 100 * 0.4) ∧
    (optimizeForCompression analysis opts).predictedSize =
      ⌊(analysis.fileSize : ℚ) *
        (1 - min (0.8 : ℚ) (0.3 + (100 - (amendedC4Quality analysis opts : ℚ)) / 100 * 0.4))⌋ ∧
    (optimizeForCompression analysis opts).estimatedPSNR =
      .fin (max 30 (25 + (amendedC4Quality analysis opts : ℚ) / 100 * 20)) := by
  intro analysis opts
  have hq : (optimizeForCompression analysis opts).quality = amendedC4Quality analysis opts := by
    simp only [optimizeForCompression, amendedC4Quality]
    split_ifs <;> omega
  have hr : (optimizeForCompression analysis opts).compressionRatio =
      min (0.8 : ℚ) (0.3 + (100 - ((optimizeForCompression analysis opts).quality : ℚ)) / 100 * 0.4) := rfl
  have hs : (optimizeForCompression analysis opts).predictedSize =
      ⌊(analysis.fileSize : ℚ) * (1 - (optimizeForCompression analysis opts).compressionRatio)⌋ := rfl
  have hp : (optimizeForCompression analysis opts).estimatedPSNR =
      .fin (max 30 (25 + ((optimizeForCompression analysis opts).quality : ℚ) / 100 * 20)) := rfl
  refine ⟨hq, rfl, ?_, ?_, ?_⟩
  · rw [hr, hq]
  · rw [hs, hr, hq]
  · rw [hp, hq]

/-- Counterexample to C4 as stated: attributes width 40, height 50, frames 21
(base quality 85) with options targetRatio 1, minQuality 45, maxQuality 70.
The source clamps to maxQuality before the frames deduction and returns 65,
while the claimed single-clamp formula yields 70. -/
theorem claim_C4_counterexample :
    (optimizeForCompression ⟨1000, 40, 50, 21, "gif", 72, false⟩
      ⟨1, 35, 70, 45, 6, false⟩).quality = 65 ∧
    claimC4Quality ⟨1000, 40, 50, 21, "gif", 72, false⟩ ⟨1, 35, 70, 45, 6, false⟩ = 70 ∧
    (optimizeForCompression ⟨1000, 40, 50, 21, "gif", 72, false⟩
      ⟨1, 35, 70, 45, 6, false⟩).quality ≠
      claimC4Quality ⟨1000, 40, 50, 21, "gif", 72, false⟩ ⟨1, 35, 70, 45, 6, false⟩ := by
  norm_num [optimizeForCompression, claimC4Quality, predictQualityFromSize]

/-- The compression strategy keeps its quality within the configured bounds
whenever minQuality is at most maxQuality. -/
theorem compression_quality_bounds (a : GIFAnalysis) (o : OptimizationOptions)
    (h : o.minQuality ≤ o.maxQuality) :
    o.minQuality ≤ (optimizeForCompression a o).quality ∧
    (optimizeForCompression a o).quality ≤ o.maxQuality := by
  simp only [optimizeForCompression]
  split_ifs <;> constructor <;> omega

/-- Without the lossless branch, the quality strategy always returns one of
the three fixed qualities 80, 85, 90, ignoring the configured bounds. -/
theorem quality_strategy_quality (a : GIFAnalysis) (o : OptimizationOptions)
    (h : o.allowLossless = false) :
    (optimizeForQuality a o).quality = 80 ∨ (optimizeForQuality a o).quality = 85 ∨
    (optimizeForQuality a o).quality = 90 := by
  simp only [optimizeForQuality, h, Bool.false_eq_true, false_and, if_false]
  split_ifs <;> simp

/-- Both branches of the quality strategy return effort = maxEffort. -/
theorem quality_effort (a : GIFAnalysis) (o : OptimizationOptions) :
    (optimizeForQuality a o).effort = o.maxEffort := by
  simp only [optimizeForQuality]
  split_ifs <;> rfl

/-- The balanced quality, the floor of the mean of the two strategy
qualities, stays within the configured bounds when both inputs do. -/
theorem balanced_quality_bounds (a : GIFAnalysis) (o : OptimizationOptions)
    (hmin : o.minQuality ≤ 80) (hmax : 90 ≤ o.maxQuality) (hl : o.allowLossless = false) :
    o.minQuality ≤ (optimizeBalanced a o).quality ∧
    (optimizeBalanced a o).quality ≤ o.maxQuality := by
  obtain ⟨hc1, hc2⟩ := compression_quality_bounds a o (by omega)
  have hq := quality_strategy_quality a o hl
  have hq1 : o.minQuality ≤ (optimizeForQuality a o).quality := by rcases hq with h | h | h <;> omega
  have hq2 : (optimizeForQuality a o).quality ≤ o.maxQuality := by rcases hq with h | h | h <;> omega
  have hbq : (optimizeBalanced a o).quality =
      ⌊(((optimizeForCompression a o).quality + (optimizeForQuality a o).quality : ℤ) : ℚ) / 2⌋ := rfl
  constructor
  · rw [hbq, Int.le_floor]
    push_cast
    have h1 : ((o.minQuality : ℚ)) ≤ ((optimizeForCompression a o).quality : ℚ) := by exact_mod_cast hc1
    have h2 : ((o.minQuality : ℚ)) ≤ ((optimizeForQuality a o).quality : ℚ) := by exact_mod_cast hq1
    linarith
  · rw [hbq]
    have hfl := Int.floor_le ((((optimizeForCompression a o).quality + (optimizeForQuality a o).quality : ℤ) : ℚ) / 2)
    have hle : ((((optimizeForCompression a o).quality + (optimizeForQuality a o).quality : ℤ) : ℚ) / 2) ≤ (o.maxQuality : ℚ) := by
      push_cast
      have h1 : (((optimizeForCompression a o).quality : ℚ)) ≤ (o.maxQuality : ℚ) := by exact_mod_cast hc2
      have h2 : (((optimizeForQuality a o).quality : ℚ)) ≤ (o.maxQuality : ℚ) := by exact_mod_cast hq2
      linarith
    have hcomb := le_trans hfl hle
    exact_mod_cast hcomb

/-- The adaptive strategy returns the result of one of the three concrete
strategies. -/
theorem adaptive_result_cases (a : GIFAnalysis) (o : OptimizationOptions) :
    (optimizeAdaptive a o).result = optimizeForCompression a o ∨
    (optimizeAdaptive a o).result = optimizeForQuality a o ∨
    (optimizeAdaptive a o).result = optimizeBalanced a o := by
  simp only [optimizeAdaptive]
  split_ifs <;> simp

/-- C3 (amended): for every ImageAttributes and every options record with
minQuality at most 80, maxQuality at least 90, maxEffort in [0,6] and
allowLossless off, all four strategies (compression, quality, balanced,
adaptive) return quality within [minQuality, maxQuality] and effort within
[0, 6].  The side conditions are forced: the lossless branch returns quality
100 above the default maxQuality 95, the quality strategy ignores the bounds
and returns one of 80, 85, 90, and effort is copied from maxEffort. -/
theorem claim_C3 : ∀ (analysis : GIFAnalysis) (opts : OptimizationOptions),
    opts.minQuality ≤ 80 → 90 ≤ opts.maxQuality → 0 ≤ opts.maxEffort → opts.maxEffort ≤ 6 →
    opts.allowLossless = false →
    resultWithinBounds opts (optimizeForCompression analysis opts) ∧
    resultWithinBounds opts (optimizeForQuality analysis opts) ∧
    resultWithinBounds opts (optimizeBalanced analysis opts) ∧
    resultWithinBounds opts (optimizeAdaptive analysis opts).result := by
  intro a o hmin hmax he0 he6 hl
  have hc := compression_quality_bounds a o (by omega)
  have hqq := quality_strategy_quality a o hl
  have hb := balanced_quality_bounds a o hmin hmax hl
  have hC : resultWithinBounds o (optimizeForCompression a o) :=
    ⟨hc.1, hc.2, he0, he6⟩
  have hQ : resultWithinBounds o (optimizeForQuality a o) := by
    refine ⟨?_, ?_, ?_, ?_⟩
    · rcases hqq with h | h | h <;> omega
    · rcases hqq with h | h | h <;> omega
    · rw [quality_effort]; omega
    · rw [quality_effort]; omega
  have hB : resultWithinBounds o (optimizeBalanced a o) :=
    ⟨hb.1, hb.2, he0, he6⟩
  refine ⟨hC, hQ, hB, ?_⟩
  rcases adaptive_result_cases a o with h | h | h <;> rw [h]
  · exact hC
  · exact hQ
  · exact hB

/-- Counterexample to C3 as stated: with the default options plus
allowLossless, a small file takes the lossless branch of the quality strategy
and returns quality 100, above maxQuality 95, so the claimed bound fails for
that options record. -/
theorem claim_C3_counterexample :
    (optimizeForQuality ⟨1000000, 100, 100, 1, "gif", 72, false⟩
      { DEFAULT_OPTIONS with allowLossless := true }).quality = 100 ∧
    { DEFAULT_OPTIONS with allowLossless := true }.maxQuality = 95 ∧
    ¬ resultWithinBounds { DEFAULT_OPTIONS with allowLossless := true }
      (optimizeForQuality ⟨1000000, 100, 100, 1, "gif", 72, false⟩
        { DEFAULT_OPTIONS with allowLossless := true }) := by
  refine ⟨by decide, by decide, ?_⟩
  intro hbounds
  have h1 : (optimizeForQuality ⟨1000000, 100, 100, 1, "gif", 72, false⟩
      { DEFAULT_OPTIONS with allowLossless := true }).quality = 100 := by decide
  have hq := hbounds.2.1
  rw [h1] at hq
  have h95 : { DEFAULT_OPTIONS with allowLossless := true }.maxQuality = 95 := by decide
  rw [h95] at hq
  omega

/-- Witness for C3 at the default options and a concrete analysis. -/
theorem claim_C3_witness :
    DEFAULT_OPTIONS.minQuality ≤ 80 ∧ 90 ≤ DEFAULT_OPTIONS.maxQuality ∧
    0 ≤ DEFAULT_OPTIONS.maxEffort ∧ DEFAULT_OPTIONS.maxEffort ≤ 6 ∧
    DEFAULT_OPTIONS.allowLossless = false ∧
    (resultWithinBounds DEFAULT_OPTIONS
      (optimizeForCompression ⟨1000000, 500, 500, 10, "gif", 72, false⟩ DEFAULT_OPTIONS) ∧
    resultWithinBounds DEFAULT_OPTIONS
      (optimizeForQuality ⟨1000000, 500, 500, 10, "gif", 72, false⟩ DEFAULT_OPTIONS) ∧
    resultWithinBounds DEFAULT_OPTIONS
      (optimizeBalanced ⟨1000000, 500, 500, 10, "gif", 72, false⟩ DEFAULT_OPTIONS) ∧
    resultWithinBounds DEFAULT_OPTIONS
      (optimizeAdaptive ⟨1000000, 500, 500, 10, "gif", 72, false⟩ DEFAULT_OPTIONS).result) :=
  ⟨by decide, by decide, by decide, by decide, by decide,
    claim_C3 ⟨1000000, 500, 500, 10, "gif", 72, false⟩ DEFAULT_OPTIONS
      (by decide) (by decide) (by decide) (by decide) (by decide)⟩

/-- The PSNR partial score never exceeds 100. -/
theorem psnrScoreOf_le_100 (p : PsnrVal) : psnrScoreOf p ≤ 100 := by
  cases p with
  | inf => simp [psnrScoreOf]
  | fin q =>
    simp only [psnrScoreOf, QUALITY_THRESHOLDS]
    norm_num
    split_ifs <;> first
    | linarith
    | exact max_le (by norm_num) (by linarith)

/-- The PSNR partial score is monotone in the PSNR value, across all four
piecewise branches and the infinite case. -/
theorem psnrScoreOf_mono (p q : PsnrVal) (h : psnrLe p q = true) :
    psnrScoreOf p ≤ psnrScoreOf q := by
  cases p with
  | inf =>
    cases q with
    | inf => exact le_refl _
    | fin y => simp [psnrLe] at h
  | fin x =>
    cases q with
    | inf => exact le_trans (psnrScoreOf_le_100 _) (by simp [psnrScoreOf])
    | fin y =>
      simp only [psnrLe, decide_eq_true_eq] at h
      simp only [psnrScoreOf, QUALITY_THRESHOLDS]
      norm_num
      split_ifs <;> first
      | linarith
      | exact max_le (by linarith) (by linarith)
      | exact le_trans (max_le (by linarith) (by linarith)) (by linarith)
      | exact max_le_max (le_refl 0) (by linarith)

/-- C7: for every fixed ssim and compressionRatio and every pair of PSNR
values p1 at most p2, the composite quality score at p1 is at most the score
at p2: calculateQualityScore is non-decreasing in PSNR. -/
theorem claim_C7 : ∀ (ssim compressionRatio : ℚ) (p1 p2 : PsnrVal),
    psnrLe p1 p2 = true →
    calculateQualityScore p1 ssim compressionRatio ≤
      calculateQualityScore p2 ssim compressionRatio := by
  intro s r p1 p2 h
  have hm := psnrScoreOf_mono p1 p2 h
  simp only [calculateQualityScore, jsRound]
  apply Int.floor_le_floor
  have h1 : psnrScoreOf p1 * 0.6 + s * 100 * 0.3 + min 10 (r * 15) * 0.1 ≤
      psnrScoreOf p2 * 0.6 + s * 100 * 0.3 + min 10 (r * 15) * 0.1 := by linarith
  have h2 := max_le_max (le_refl (0 : ℚ)) h1
  have h3 := min_le_min (le_refl (100 : ℚ)) h2
  linarith

/-- Witness for C7 at psnr values 32 and 38 with ssim 0.9 and ratio 0.5. -/
theorem claim_C7_witness :
    psnrLe (PsnrVal.fin 32) (PsnrVal.fin 38) = true ∧
    calculateQualityScore (PsnrVal.fin 32) 0.9 0.5 ≤
      calculateQualityScore (PsnrVal.fin 38) 0.9 0.5 :=
  ⟨by norm_num [psnrLe], claim_C7 0.9 0.5 (PsnrVal.fin 32) (PsnrVal.fin 38) (by norm_num [psnrLe])⟩

/-- At infinite PSNR and ssim 1, the composite score reaches at least 90 for
every compression ratio of at least minus one third. -/
theorem score_at_inf_ge_90 (r : ℚ) (hr : -(1/3) ≤ r) :
    (90 : ℤ) ≤ calculateQualityScore PsnrVal.inf 1 r := by
  simp only [calculateQualityScore, psnrScoreOf, jsRound]
  rw [Int.le_floor]
  have hmin1 : (-5 : ℚ) ≤ min 10 (r * 15) := le_min (by norm_num) (by linarith)
  have hmin2 : min 10 (r * 15) ≤ 10 := min_le_left _ _
  rw [max_eq_right (by linarith), min_eq_right (by linarith)]
  push_cast
  linarith

/-- C2 (amended): for every pair of equal-length pixel buffers whose MSE is 0,
the computed PSNR is Infinity and the SSIM estimate is exactly 1.0 for every
compression ratio, and the quality grade is excellent for every compression
ratio of at least minus one third (in particular every nonnegative one); a
ratio below minus one third drags the composite score under the excellent
threshold of 90. -/
theorem claim_C2 : ∀ (a b : List ℤ) (channels : ℕ) (mse r : ℚ),
    calculateMSE a b channels = .ok (some mse) → mse = 0 → -(1/3) ≤ r →
    calculatePSNR mse = .inf ∧
    estimateSSIM (calculatePSNR mse) = 1 ∧
    getQualityGrade (calculatePSNR mse) (estimateSSIM (calculatePSNR mse))
      (calculateQualityScore (calculatePSNR mse) (estimateSSIM (calculatePSNR mse)) r)
      = "excellent" := by
  intro a b ch mse r hmse h0 hr
  subst h0
  have hpsnr : calculatePSNR 0 = PsnrVal.inf := by simp [calculatePSNR]
  refine ⟨hpsnr, by rw [hpsnr]; rfl, ?_⟩
  rw [hpsnr]
  have hssim : estimateSSIM PsnrVal.inf = 1 := rfl
  rw [hssim]
  have hscore := score_at_inf_ge_90 r hr
  unfold getQualityGrade
  rw [if_pos]
  constructor
  · rfl
  · simpa [QUALITY_THRESHOLDS] using hscore

/-- Witness for C2 at two identical three-entry buffers and ratio 0. -/
theorem claim_C2_witness :
    calculateMSE [5, 5, 5] [5, 5, 5] 3 = .ok (some 0) ∧ ((0 : ℚ) = 0) ∧ (-(1/3) : ℚ) ≤ 0 ∧
    (calculatePSNR 0 = .inf ∧
    estimateSSIM (calculatePSNR 0) = 1 ∧
    getQualityGrade (calculatePSNR 0) (estimateSSIM (calculatePSNR 0))
      (calculateQualityScore (calculatePSNR 0) (estimateSSIM (calculatePSNR 0)) 0)
      = "excellent") := by
  have hmse : calculateMSE [5, 5, 5] [5, 5, 5] 3 = .ok (some 0) := by
    simp [calculateMSE, outerSum, innerSum, sqDiffAt, nanAdd]
  exact ⟨hmse, rfl, by norm_num, claim_C2 [5, 5, 5] [5, 5, 5] 3 0 0 hmse rfl (by norm_num)⟩

/-- Counterexample to C2 as stated: identical buffers give MSE 0 and hence
infinite PSNR, yet at compression ratio minus one (compressed output twice
the original size) the composite score is 89, below the excellent threshold,
and the grade is good, not excellent. -/
theorem claim_C2_counterexample :
    calculateMSE [0, 0, 0] [0, 0, 0] 3 = .ok (some 0) ∧
    getQualityGrade (calculatePSNR 0) (estimateSSIM (calculatePSNR 0))
      (calculateQualityScore (calculatePSNR 0) (estimateSSIM (calculatePSNR 0)) (-1))
      = "good" ∧
    getQualityGrade (calculatePSNR 0) (estimateSSIM (calculatePSNR 0))
      (calculateQualityScore (calculatePSNR 0) (estimateSSIM (calculatePSNR 0)) (-1))
      ≠ "excellent" := by
  have hpsnr : calculatePSNR 0 = PsnrVal.inf := by simp [calculatePSNR]
  have hmse : calculateMSE [0, 0, 0] [0, 0, 0] 3 = .ok (some 0) := by
    simp [calculateMSE, outerSum, innerSum, sqDiffAt, nanAdd]
  have hscore : calculateQualityScore PsnrVal.inf (estimateSSIM PsnrVal.inf) (-1) = 89 := by
    simp only [calculateQualityScore, psnrScoreOf, estimateSSIM, jsRound]
    norm_num
  rw [hpsnr]
  refine ⟨hmse, ?_, ?_⟩ <;> rw [hscore] <;> simp [getQualityGrade, psnrGe, QUALITY_THRESHOLDS]

/-- The inner channel loop adds exactly the in-bounds squared differences of
its block when the block fits inside the buffer. -/
theorem innerSum_eq (a b : List ℤ) (hb : a.length = b.length) (i : ℕ) :
    ∀ n, i + n ≤ a.length →
    innerSum a b i n = some (∑ k in Finset.Ico i (i + n),
      (((a.getD k 0 - b.getD k 0) * (a.getD k 0 - b.getD k 0) : ℤ) : ℚ)) := by
  intro n
  induction n with
  | zero => intro h; simp [innerSum]
  | succ m ih =>
    intro h
    have h1 : i + m ≤ a.length := by omega
    rw [innerSum, ih h1, sqDiffAt, if_pos ⟨by omega, by omega⟩]
    simp only [nanAdd]
    rw [show i + (m + 1) = (i + m) + 1 from rfl, Finset.sum_Ico_succ_top (by omega)]

/-- When the channel stride divides the remaining length, the outer loop sums
the squared differences of every remaining entry without any NaN. -/
theorem outerSum_eq (a b : List ℤ) (chm1 : ℕ) (hb : a.length = b.length) :
    ∀ (m i : ℕ), i ≤ a.length → a.length - i = m * (chm1 + 1) →
    outerSum a b chm1 i = some (∑ k in Finset.Ico i a.length,
      (((a.getD k 0 - b.getD k 0) * (a.getD k 0 - b.getD k 0) : ℤ) : ℚ)) := by
  intro m
  induction m with
  | zero =>
    intro i hle h
    have hi : i = a.length := by omega
    rw [outerSum, if_neg (by omega)]
    simp [hi]
  | succ p ih =>
    intro i hle h
    have hprod : 0 < (p + 1) * (chm1 + 1) := Nat.mul_pos (Nat.succ_pos p) (Nat.succ_pos chm1)
    have hi : i < a.length := by
      generalize hq : (p + 1) * (chm1 + 1) = q at h hprod
      omega
    have hstep : i + (chm1 + 1) ≤ a.length := by
      have hle2 : chm1 + 1 ≤ (p + 1) * (chm1 + 1) :=
        Nat.le_mul_of_pos_left _ (Nat.succ_pos p)
      generalize hq : (p + 1) * (chm1 + 1) = q at h hle2
      omega
    have hrec : a.length - (i + (chm1 + 1)) = p * (chm1 + 1) := by
      have hexp : (p + 1) * (chm1 + 1) = p * (chm1 + 1) + (chm1 + 1) := by ring
      rw [hexp] at h
      generalize hq : p * (chm1 + 1) = q at h ⊢
      omega
    rw [outerSum, if_pos hi, innerSum_eq a b hb i (chm1 + 1) hstep,
      ih (i + (chm1 + 1)) hstep hrec]
    simp only [nanAdd]
    rw [← Finset.sum_Ico_consecutive _ (Nat.le_add_right i (chm1 + 1)) hstep]

/-- With equal buffer lengths, calculateMSE always returns a value and never
throws, whatever the channel count. -/
theorem calculateMSE_ok_of_eq (a b : List ℤ) (ch : ℕ) (hl : a.length = b.length) :
    ∃ v, calculateMSE a b ch = .ok v := by
  unfold calculateMSE
  rw [if_neg (fun h => h hl)]
  rcases ch with _ | c
  · exact ⟨none, rfl⟩
  · rcases houter : outerSum a b c 0 with _ | t <;> simp only [houter]
    · exact ⟨none, rfl⟩
    · by_cases hz : a.length = 0
      · rw [if_pos hz]; exact ⟨none, rfl⟩
      · rw [if_neg hz]; exact ⟨_, rfl⟩

/-- C8 (amended): calculateMSE raises the size-mismatch error if and only if
the two pixel buffers have different lengths; for equal-length nonempty
buffers whose length is a multiple of the (positive) channel count it returns
the mean of the squared per-channel differences over all pixels.  When the
channel count does not divide the length the source reads past the buffer end
and produces NaN instead of the mean, which forces the added side
conditions. -/
theorem claim_C8 : ∀ (a b : List ℤ) (channels : ℕ),
    ((∃ e, calculateMSE a b channels = .error e) ↔ a.length ≠ b.length) ∧
    (a.length = b.length → 0 < channels → channels ∣ a.length → a.length ≠ 0 →
      calculateMSE a b channels = .ok (some (specMeanSquaredDiff a b))) := by
  intro a b ch
  constructor
  · constructor
    · rintro ⟨e, he⟩
      intro hl
      obtain ⟨v, hv⟩ := calculateMSE_ok_of_eq a b ch hl
      rw [hv] at he
      exact Except.noConfusion he
    · intro hl
      exact ⟨_, by unfold calculateMSE; rw [if_pos hl]⟩
  · intro hl hpos hdvd hne
    rcases ch with _ | c
    · omega
    obtain ⟨m, hm⟩ := hdvd
    have houter := outerSum_eq a b c hl m 0 (Nat.zero_le _)
      (by rw [Nat.sub_zero, hm]; ring)
    unfold calculateMSE
    rw [if_neg (fun h => h hl)]
    simp only [houter]
    rw [if_neg hne]
    have hc : ((c : ℚ) + 1) ≠ 0 := by positivity
    rw [div_mul_cancel₀ _ hc]
    unfold specMeanSquaredDiff
    rw [Finset.range_eq_Ico]

/-- Witness for C8 on two concrete three-entry buffers with three channels:
the returned value is the mean of the squared differences. -/
theorem claim_C8_witness :
    ([1, 2, 3] : List ℤ).length = ([1, 1, 1] : List ℤ).length ∧ 0 < 3 ∧ 3 ∣ ([1, 2, 3] : List ℤ).length ∧
    calculateMSE [1, 2, 3] [1, 1, 1] 3 = .ok (some (specMeanSquaredDiff [1, 2, 3] [1, 1, 1])) :=
  ⟨by decide, by decide, by decide,
    (claim_C8 [1, 2, 3] [1, 1, 1] 3).2 (by decide) (by decide) (by decide) (by decide)⟩

/-- Counterexample to C8 as stated: equal four-entry buffers compared with
three channels make the inner loop read past the end, so the source returns
NaN, not the mean 0 of the squared differences. -/
theorem claim_C8_counterexample :
    calculateMSE [0, 0, 0, 0] [0, 0, 0, 0] 3 = .ok none ∧
    specMeanSquaredDiff [0, 0, 0, 0] [0, 0, 0, 0] = 0 ∧
    calculateMSE [0, 0, 0, 0] [0, 0, 0, 0] 3 ≠
      .ok (some (specMeanSquaredDiff [0, 0, 0, 0] [0, 0, 0, 0])) := by
  have h1 : calculateMSE [0, 0, 0, 0] [0, 0, 0, 0] 3 = .ok none := by
    simp [calculateMSE, outerSum, innerSum, sqDiffAt, nanAdd]
  have h2 : specMeanSquaredDiff [0, 0, 0, 0] [0, 0, 0, 0] = 0 := by
    simp [specMeanSquaredDiff]
  exact ⟨h1, h2, by simp [h1]⟩

/-- Replacing one list element can raise a countP count by at most one. -/
theorem countP_set_le (l : List TaskStatus) : ∀ (i : ℕ) (v : TaskStatus) (p : TaskStatus → Bool),
    (l.set i v).countP p ≤ l.countP p + 1 := by
  induction l with
  | nil => intro i v p; simp [List.set]
  | cons x xs ih =>
    intro i v p
    cases i with
    | zero =>
      simp only [List.set, List.countP_cons]
      split_ifs <;> omega
    | succ j =>
      simp only [List.set, List.countP_cons]
      have h := ih j v p
      split_ifs <;> omega

/-- Replacing one list element by a value the predicate rejects never raises
the countP count. -/
theorem countP_set_of_neg (l : List TaskStatus) : ∀ (i : ℕ) (v : TaskStatus) (p : TaskStatus → Bool),
    p v = false → (l.set i v).countP p ≤ l.countP p := by
  induction l with
  | nil => intro i v p hp; simp [List.set]
  | cons x xs ih =>
    intro i v p hp
    cases i with
    | zero =>
      simp only [List.set, List.countP_cons, hp, Bool.false_eq_true, if_false]
      split_ifs <;> omega
    | succ j =>
      simp only [List.set, List.countP_cons]
      have h := ih j v p hp
      split_ifs <;> omega

/-- No item of a fresh batch is running. -/
theorem countRunning_replicate (n : ℕ) : countRunning (List.replicate n TaskStatus.pending) = 0 := by
  induction n with
  | zero => rfl
  | succ m ih =>
    rw [List.replicate_succ]
    simp only [countRunning, List.countP_cons] at ih ⊢
    rw [ih, show (TaskStatus.pending == TaskStatus.running) = false from rfl]
    simp

/-- A settled mapper call never leaves its item in the running state. -/
theorem finishStatus_ne_running (o : MapOutcome) :
    (finishStatus o == TaskStatus.running) = false := by
  cases o with
  | resolves b => cases b <;> rfl
  | rejects => rfl

/-- A settled mapper call never marks its item skipped. -/
theorem finishStatus_ne_skipped (o : MapOutcome) : finishStatus o ≠ TaskStatus.skipped := by
  cases o with
  | resolves b => cases b <;> simp [finishStatus]
  | rejects => simp [finishStatus]

/-- Induction principle for batch executions: a predicate holding initially
and preserved by every enabled event holds in every reachable state. -/
theorem batchExec_invariant (n c : ℕ) (stop : Bool) (mapper : ℕ → MapOutcome)
    {P : BatchState → Prop}
    (hinit : P (initState n))
    (hstep : ∀ s e s', P s → applyEvent c stop mapper s e = some s' → P s') :
    ∀ (events : List BEvent) (s : BatchState),
      batchExec n c stop mapper events = some s → P s := by
  have key : ∀ (events : List BEvent) (acc : Option BatchState) (s : BatchState),
      (∀ s0, acc = some s0 → P s0) →
      events.foldl (fun acc e => acc.bind (fun st => applyEvent c stop mapper st e)) acc = some s →
      P s := by
    intro events
    induction events with
    | nil => intro acc s hacc h; exact hacc s h
    | cons e rest ih =>
      intro acc s hacc h
      simp only [List.foldl_cons] at h
      refine ih _ s ?_ h
      intro s0 h0
      rcases acc with _ | s1
      · simp at h0
      · simp only [Option.some_bind] at h0
        exact hstep s1 e s0 (hacc s1 rfl) h0
  intro events s h
  exact key events (some (initState n)) s (fun s0 h0 => by cases h0; exact hinit) h

/-- C9: for every batch run, in every reachable state at most c items are in
the running state simultaneously, and whenever the pool is not stopped and a
running slot is free, the next queued item is immediately admissible (the
start event for the first pending item is enabled). -/
theorem claim_C9 : ∀ (n c : ℕ) (stopOnError : Bool) (mapper : ℕ → MapOutcome)
    (events : List BEvent) (s : BatchState),
    batchExec n c stopOnError mapper events = some s →
    countRunning s.status ≤ c ∧
    (s.stopped = false → countRunning s.status < c →
      ∀ i, firstPending s.status = some i →
        (applyEvent c stopOnError mapper s (BEvent.start i)).isSome = true) := by
  intro n c stop mapper events s hexec
  refine ⟨?_, ?_⟩
  · refine batchExec_invariant n c stop mapper
      (P := fun st => countRunning st.status ≤ c) ?_ ?_ events s hexec
    · simp [initState, countRunning_replicate]
    · intro st e st' hP happly
      cases e with
      | start i =>
        simp only [applyEvent] at happly
        split_ifs at happly with hcond
        rcases hcond with ⟨h1, h2, h3⟩
        cases happly
        have hle := countP_set_le st.status i TaskStatus.running (fun s => s == TaskStatus.running)
        simp only [countRunning] at *
        omega
      | finish i =>
        simp only [applyEvent] at happly
        split_ifs at happly with hcond
        cases happly
        have hle := countP_set_of_neg st.status i (finishStatus (mapper i))
          (fun s => s == TaskStatus.running) (finishStatus_ne_running (mapper i))
        simp only [countRunning] at *
        omega
  · intro hstop hlt i hfp
    simp [applyEvent, hstop, hlt, hfp]

/-- C1 (amended): because convertFile catches every per-item error and
resolves with a failure result instead of rejecting, a run with
stopOnError set never stops early: in every reachable state of such a run
the pool is not stopped, no item is ever marked skipped, and pending items
keep being admitted to running regardless of earlier failures. -/
theorem claim_C1 : ∀ (n c : ℕ) (fails : ℕ → Bool) (events : List BEvent) (s : BatchState),
    batchExec n c true (convertFileOutcome fails) events = some s →
    s.stopped = false ∧
    TaskStatus.skipped ∉ s.status ∧
    (countRunning s.status < c → ∀ i, firstPending s.status = some i →
      (applyEvent c true (convertFileOutcome fails) s (BEvent.start i)).isSome = true) := by
  intro n c fails events s hexec
  have hinv : s.stopped = false ∧ TaskStatus.skipped ∉ s.status := by
    refine batchExec_invariant n c true (convertFileOutcome fails)
      (P := fun st => st.stopped = false ∧ TaskStatus.skipped ∉ st.status) ?_ ?_ events s hexec
    · refine ⟨rfl, ?_⟩
      simp [initState, List.mem_replicate]
    · intro st e st' hP happly
      cases e with
      | start i =>
        simp only [applyEvent] at happly
        split_ifs at happly with hcond
        cases happly
        refine ⟨hP.1, ?_⟩
        intro hmem
        rcases List.mem_or_eq_of_mem_set hmem with h | h
        · exact hP.2 h
        · simp at h
      | finish i =>
        simp only [applyEvent] at happly
        split_ifs at happly with hcond
        cases happly
        constructor
        · simp [hP.1, convertFileOutcome, isRejection]
        · intro hmem
          rcases List.mem_or_eq_of_mem_set hmem with h | h
          · exact hP.2 h
          · exact finishStatus_ne_skipped _ h.symm
  refine ⟨hinv.1, hinv.2, ?_⟩
  intro hlt i hfp
  simp [applyEvent, hinv.1, hlt, hfp]

/-- Counterexample to C1 as stated: with stopOnError set and concurrency 1,
after item 0 finishes failed, the pending item 1 is still admitted to running
(the pool never stopped, because convertFile resolved the failure instead of
rejecting), and no item is marked skipped. -/
theorem claim_C1_counterexample :
    batchExec 2 1 true (convertFileOutcome (fun i => i == 0)) [BEvent.start 0, BEvent.finish 0] =
      some ⟨[TaskStatus.failed, TaskStatus.pending], false⟩ ∧
    batchExec 2 1 true (convertFileOutcome (fun i => i == 0))
      [BEvent.start 0, BEvent.finish 0, BEvent.start 1] =
      some ⟨[TaskStatus.failed, TaskStatus.running], false⟩ ∧
    TaskStatus.skipped ∉ [TaskStatus.failed, TaskStatus.running] := by
  refine ⟨by decide, by decide, by simp⟩

/-- Witness for C9 on a concrete two-item run with concurrency 2. -/
theorem claim_C9_witness :
    batchExec 2 2 false (convertFileOutcome (fun _ => false)) [BEvent.start 0] =
      some ⟨[TaskStatus.running, TaskStatus.pending], false⟩ ∧
    countRunning (BatchState.status ⟨[TaskStatus.running, TaskStatus.pending], false⟩) ≤ 2 ∧
    (applyEvent 2 false (convertFileOutcome (fun _ => false))
      ⟨[TaskStatus.running, TaskStatus.pending], false⟩ (BEvent.start 1)).isSome = true := by
  have hexec : batchExec 2 2 false (convertFileOutcome (fun _ => false)) [BEvent.start 0] =
      some ⟨[TaskStatus.running, TaskStatus.pending], false⟩ := by decide
  have h := claim_C9 2 2 false (convertFileOutcome (fun _ => false)) [BEvent.start 0]
    ⟨[TaskStatus.running, TaskStatus.pending], false⟩ hexec
  exact ⟨hexec, h.1, h.2 rfl (by decide) 1 (by decide)⟩

/-- Witness for the amended C1 on a concrete run whose first item fails. -/
theorem claim_C1_witness :
    batchExec 2 1 true (convertFileOutcome (fun _ => true)) [BEvent.start 0, BEvent.finish 0] =
      some ⟨[TaskStatus.failed, TaskStatus.pending], false⟩ ∧
    BatchState.stopped ⟨[TaskStatus.failed, TaskStatus.pending], false⟩ = false ∧
    TaskStatus.skipped ∉ BatchState.status ⟨[TaskStatus.failed, TaskStatus.pending], false⟩ ∧
    (applyEvent 1 true (convertFileOutcome (fun _ => true))
      ⟨[TaskStatus.failed, TaskStatus.pending], false⟩ (BEvent.start 1)).isSome = true := by
  have hexec : batchExec 2 1 true (convertFileOutcome (fun _ => true)) [BEvent.start 0, BEvent.finish 0] =
      some ⟨[TaskStatus.failed, TaskStatus.pending], false⟩ := by decide
  have h := claim_C1 2 1 (fun _ => true) [BEvent.start 0, BEvent.finish 0]
    ⟨[TaskStatus.failed, TaskStatus.pending], false⟩ hexec
  exact ⟨hexec, h.1, h.2.1, h.2.2 (by decide) 1 (by decide)⟩
